import Mathlib

/-!
Verification of the ClockiFill time-entry tool (src/main.py) against its
specification.  The Python program is embedded shallowly:

* `PyDateTime` models `datetime.datetime` (proleptic Gregorian calendar,
  microsecond resolution); comparison is field-lexicographic, exactly as
  Python compares datetimes.
* `nextDay` models `current_date += timedelta(days=1)` on the calendar.
* `get_working_days` is the loop of `get_working_days` in `main.py`.
* `pyStrftimeZ` / `pyIsoformatZ` model the two timestamp serializations
  (`strftime("%Y-%m-%dT%H:%M:%SZ")` versus `isoformat() + "Z"`).
* `has_time_entry`, `add_time_entry_payload` model the API client methods,
  with the remote service abstracted as a response oracle.
* `runDays` models the per-day loop of `main`, with exceptions modelled by
  `Except` (an `Except.error` result is an exception escaping the loop).
* `select_project` / `select_task` model the interactive selection prompts,
  with `int(...)` parsing abstracted as a function `pyInt`.
-/

namespace ClockiFill

/-- Model of Python `datetime.datetime`: year, month, day and time-of-day
fields.  Python's constructor only admits valid calendar values; the fields
here are unrestricted naturals, and every statement about real program
behaviour either holds for all field values or takes the validity it needs
as a hypothesis. -/
structure PyDateTime where
  year : Nat
  month : Nat
  day : Nat
  hour : Nat
  minute : Nat
  second : Nat
  microsecond : Nat
deriving DecidableEq, Repr

/-- Python datetime `<`: lexicographic on the fields, most significant
first, exactly as `datetime.__lt__` compares. -/
def dtLtB (a b : PyDateTime) : Bool :=
  decide (a.year < b.year) || (decide (a.year = b.year) && (
  decide (a.month < b.month) || (decide (a.month = b.month) && (
  decide (a.day < b.day) || (decide (a.day = b.day) && (
  decide (a.hour < b.hour) || (decide (a.hour = b.hour) && (
  decide (a.minute < b.minute) || (decide (a.minute = b.minute) && (
  decide (a.second < b.second) || (decide (a.second = b.second) &&
  decide (a.microsecond < b.microsecond))))))))))))

/-- Python datetime `<=` (the comparison `current_date <= end_date` in
`get_working_days`): lexicographic on the fields. -/
def dtLeB (a b : PyDateTime) : Bool :=
  decide (a.year < b.year) || (decide (a.year = b.year) && (
  decide (a.month < b.month) || (decide (a.month = b.month) && (
  decide (a.day < b.day) || (decide (a.day = b.day) && (
  decide (a.hour < b.hour) || (decide (a.hour = b.hour) && (
  decide (a.minute < b.minute) || (decide (a.minute = b.minute) && (
  decide (a.second < b.second) || (decide (a.second = b.second) &&
  decide (a.microsecond ≤ b.microsecond))))))))))))

theorem dtLtB_iff (a b : PyDateTime) : dtLtB a b = true ↔
    (a.year < b.year ∨ (a.year = b.year ∧
    (a.month < b.month ∨ (a.month = b.month ∧
    (a.day < b.day ∨ (a.day = b.day ∧
    (a.hour < b.hour ∨ (a.hour = b.hour ∧
    (a.minute < b.minute ∨ (a.minute = b.minute ∧
    (a.second < b.second ∨ (a.second = b.second ∧
    a.microsecond < b.microsecond)))))))))))) := by
  simp [dtLtB]

theorem dtLeB_iff (a b : PyDateTime) : dtLeB a b = true ↔
    (a.year < b.year ∨ (a.year = b.year ∧
    (a.month < b.month ∨ (a.month = b.month ∧
    (a.day < b.day ∨ (a.day = b.day ∧
    (a.hour < b.hour ∨ (a.hour = b.hour ∧
    (a.minute < b.minute ∨ (a.minute = b.minute ∧
    (a.second < b.second ∨ (a.second = b.second ∧
    a.microsecond ≤ b.microsecond)))))))))))) := by
  simp [dtLeB]

theorem dtLeB_refl (a : PyDateTime) : dtLeB a a = true := by
  simp [dtLeB_iff]

theorem dtLeB_trans {a b c : PyDateTime} (h1 : dtLeB a b = true)
    (h2 : dtLeB b c = true) : dtLeB a c = true := by
  rw [dtLeB_iff] at *; omega

theorem dtLeB_of_dtLtB {a b : PyDateTime} (h : dtLtB a b = true) :
    dtLeB a b = true := by
  rw [dtLtB_iff] at h; rw [dtLeB_iff]; omega

theorem dtLtB_of_lt_of_le {a b c : PyDateTime} (h1 : dtLtB a b = true)
    (h2 : dtLeB b c = true) : dtLtB a c = true := by
  rw [dtLeB_iff] at h2; rw [dtLtB_iff] at *; omega

theorem dtLeB_year {a b : PyDateTime} (h : dtLeB a b = true) :
    a.year ≤ b.year := by
  rw [dtLeB_iff] at h; omega

/-- Python `calendar`-style leap-year test (as used by `datetime`). -/
def leapYear (y : Nat) : Bool :=
  (y % 4 == 0 && y % 100 != 0) || (y % 400 == 0)

/-- Number of days in a month of the proleptic Gregorian calendar
(`_days_in_month` in CPython's datetime module); months outside 1..12 do
not arise for real datetimes, the default keeps the function total. -/
def daysInMonth (y m : Nat) : Nat :=
  if m = 2 then (if leapYear y then 29 else 28)
  else if m = 4 ∨ m = 6 ∨ m = 9 ∨ m = 11 then 30
  else 31

theorem daysInMonth_bounds (y m : Nat) :
    28 ≤ daysInMonth y m ∧ daysInMonth y m ≤ 31 := by
  unfold daysInMonth
  split_ifs <;> omega

/-- Days in the given year that precede month `m`
(`_days_before_month` in CPython's datetime module). -/
def daysBeforeMonth (y m : Nat) : Nat :=
  let L := if leapYear y then 1 else 0
  match m with
  | 1 => 0
  | 2 => 31
  | 3 => 59 + L
  | 4 => 90 + L
  | 5 => 120 + L
  | 6 => 151 + L
  | 7 => 181 + L
  | 8 => 212 + L
  | 9 => 243 + L
  | 10 => 273 + L
  | 11 => 304 + L
  | _ => 334 + L

/-- Days before January 1 of year `y` in the proleptic Gregorian calendar
(`_days_before_year` in CPython's datetime module). -/
def daysBeforeYear (y : Nat) : Nat :=
  365 * (y - 1) + (y - 1) / 4 + (y - 1) / 400 - (y - 1) / 100

/-- Python's `date.toordinal()`: day 1 is 0001-01-01. -/
def toOrdinal (d : PyDateTime) : Nat :=
  daysBeforeYear d.year + daysBeforeMonth d.year d.month + d.day

/-- Python's `datetime.weekday()`: Monday = 0 .. Sunday = 6.  0001-01-01
(ordinal 1) is a Monday. -/
def PyDateTime.weekday (d : PyDateTime) : Nat :=
  (toOrdinal d + 6) % 7

example : (PyDateTime.mk 2026 10 12 0 0 0 0).weekday = 0 := by decide
example : (PyDateTime.mk 2024 1 1 0 0 0 0).weekday = 0 := by decide
example : (PyDateTime.mk 2024 10 1 0 0 0 0).weekday = 1 := by decide
example : (PyDateTime.mk 2000 1 1 0 0 0 0).weekday = 5 := by decide
example : (PyDateTime.mk 1970 1 1 0 0 0 0).weekday = 3 := by decide
example : (PyDateTime.mk 1 1 1 0 0 0 0).weekday = 0 := by decide

/-- `current_date += timedelta(days=1)` on the calendar: advance the date
by one day, keeping the time-of-day fields. -/
def nextDay (d : PyDateTime) : PyDateTime :=
  if d.day < daysInMonth d.year d.month then { d with day := d.day + 1 }
  else if d.month < 12 then { d with month := d.month + 1, day := 1 }
  else { d with year := d.year + 1, month := 1, day := 1 }

theorem dtLtB_nextDay (d : PyDateTime) : dtLtB d (nextDay d) = true := by
  unfold nextDay
  split_ifs <;> simp [dtLtB_iff]

/-- Advancing `k` days, one at a time. -/
def addDays : Nat → PyDateTime → PyDateTime
  | 0, d => d
  | k + 1, d => addDays k (nextDay d)

theorem dtLeB_addDays (k : Nat) (d : PyDateTime) :
    dtLeB d (addDays k d) = true := by
  induction k generalizing d with
  | zero => exact dtLeB_refl d
  | succ k ih =>
      exact dtLeB_trans (dtLeB_of_dtLtB (dtLtB_nextDay d)) (ih (nextDay d))

theorem nextDay_time (d : PyDateTime) :
    (nextDay d).hour = d.hour ∧ (nextDay d).minute = d.minute ∧
    (nextDay d).second = d.second ∧ (nextDay d).microsecond = d.microsecond := by
  unfold nextDay; split_ifs <;> exact ⟨rfl, rfl, rfl, rfl⟩

theorem addDays_time (k : Nat) (d : PyDateTime) :
    (addDays k d).hour = d.hour ∧ (addDays k d).minute = d.minute ∧
    (addDays k d).second = d.second ∧ (addDays k d).microsecond = d.microsecond := by
  induction k generalizing d with
  | zero => exact ⟨rfl, rfl, rfl, rfl⟩
  | succ k ih =>
      have h1 := ih (nextDay d)
      have h2 := nextDay_time d
      exact ⟨h1.1.trans h2.1, h1.2.1.trans h2.2.1,
        h1.2.2.1.trans h2.2.2.1, h1.2.2.2.trans h2.2.2.2⟩

/-- Termination measure for the day-stepping loop: `nextDay` strictly
increases the date lexicographically, and the loop guard bounds the year. -/
def gwdMeasure (end_date current : PyDateTime) : Nat :=
  500 * (end_date.year + 1 - current.year) + 40 * (12 - current.month)
    + (32 - current.day)

theorem gwdMeasure_decreases {c e : PyDateTime} (h : dtLeB c e = true) :
    gwdMeasure e (nextDay c) < gwdMeasure e c := by
  have hy : c.year ≤ e.year := dtLeB_year h
  have hb := daysInMonth_bounds c.year c.month
  unfold gwdMeasure nextDay
  split_ifs <;> simp <;> omega

/-- `get_working_days` from `main.py`: step one day at a time from
`current_date` while `current_date <= end_date`, collecting the days whose
`weekday()` is below 5 (Monday..Friday). -/
def get_working_days (current_date end_date : PyDateTime) : List PyDateTime :=
  if h : dtLeB current_date end_date = true then
    (if current_date.weekday < 5 then [current_date] else [])
      ++ get_working_days (nextDay current_date) end_date
  else []
termination_by gwdMeasure end_date current_date
decreasing_by exact gwdMeasure_decreases h

theorem gwd_subset : ∀ n s, gwdMeasure e s ≤ n → ∀ d ∈ get_working_days s e,
    (∃ k, d = addDays k s) ∧ dtLeB d e = true ∧ d.weekday < 5 := by
  intro n
  induction n using Nat.strong_induction_on with
  | _ n ih =>
      intro s hn d hd
      rw [get_working_days] at hd
      split at hd
      case isTrue h =>
        rw [List.mem_append] at hd
        rcases hd with hd | hd
        · have hds : d = s := by
            split at hd <;> simp at hd
            exact hd
          subst hds
          refine ⟨⟨0, rfl⟩, h, ?_⟩
          split at hd <;> simp at hd
          assumption
        · have hlt := gwdMeasure_decreases h
          obtain ⟨⟨k, hk⟩, hle, hwd⟩ :=
            ih (gwdMeasure e (nextDay s)) (by omega) (nextDay s) le_rfl d hd
          exact ⟨⟨k + 1, hk⟩, hle, hwd⟩
      case isFalse h => simp at hd

theorem gwd_mem_of : ∀ k s, d = addDays k s → dtLeB d e = true →
    d.weekday < 5 → d ∈ get_working_days s e := by
  intro k
  induction k with
  | zero =>
      intro s hk hde hwd
      subst hk
      rw [get_working_days, dif_pos hde, if_pos hwd]
      simp
  | succ k ih =>
      intro s hk hde hwd
      have hsd : dtLeB s d = true := by
        rw [hk]
        exact dtLeB_trans (dtLeB_of_dtLtB (dtLtB_nextDay s)) (dtLeB_addDays k _)
      rw [get_working_days, dif_pos (dtLeB_trans hsd hde), List.mem_append]
      exact Or.inr (ih (nextDay s) hk hde hwd)

/-- Membership characterization of `get_working_days`: exactly the days
reachable from `current_date` by whole-day steps that lie in the closed
interval and whose weekday is Monday..Friday. -/
theorem gwd_mem_iff (s e d : PyDateTime) : d ∈ get_working_days s e ↔
    ((∃ k, d = addDays k s) ∧ dtLeB s d = true ∧ dtLeB d e = true ∧
      d.weekday < 5) := by
  constructor
  · intro hd
    obtain ⟨⟨k, hk⟩, hle, hwd⟩ := gwd_subset (gwdMeasure e s) s le_rfl d hd
    exact ⟨⟨k, hk⟩, hk ▸ dtLeB_addDays k s, hle, hwd⟩
  · rintro ⟨⟨k, hk⟩, _, hde, hwd⟩
    exact gwd_mem_of k s hk hde hwd

/-- `get_working_days` returns its days in strictly ascending order. -/
theorem gwd_sorted (s e : PyDateTime) :
    (get_working_days s e).Pairwise (fun a b => dtLtB a b = true) := by
  suffices h : ∀ n s, gwdMeasure e s ≤ n →
      (get_working_days s e).Pairwise (fun a b => dtLtB a b = true) from
    h (gwdMeasure e s) s le_rfl
  intro n
  induction n using Nat.strong_induction_on with
  | _ n ih =>
      intro s hn
      rw [get_working_days]
      split
      case isTrue h =>
        have hlt := gwdMeasure_decreases h
        have htail := ih (gwdMeasure e (nextDay s)) (by omega) (nextDay s) le_rfl
        rw [List.pairwise_append]
        refine ⟨?_, htail, ?_⟩
        · split <;> simp
        · intro a ha b hb
          have haS : a = s := by
            split at ha <;> simp at ha
            exact ha
          subst haS
          obtain ⟨⟨k, hk⟩, _, _⟩ :=
            gwd_subset (gwdMeasure e (nextDay a)) (nextDay a) le_rfl b hb
          have hsb : dtLeB (nextDay a) b = true := hk ▸ dtLeB_addDays k _
          exact dtLtB_of_lt_of_le (dtLtB_nextDay a) hsb
      case isFalse h => simp

/-- Zero-pad a natural to (at least) two digits, as `strftime`/`isoformat`
print month, day, hour, minute and second. -/
def pad2 (n : Nat) : String :=
  if n < 10 then "0" ++ toString n else toString n

/-- Zero-pad a natural to (at least) four digits, for the year. -/
def pad4 (n : Nat) : String :=
  if n < 10 then "000" ++ toString n
  else if n < 100 then "00" ++ toString n
  else if n < 1000 then "0" ++ toString n
  else toString n

/-- Zero-pad a natural to (at least) six digits, for microseconds. -/
def pad6 (n : Nat) : String :=
  if n < 10 then "00000" ++ toString n
  else if n < 100 then "0000" ++ toString n
  else if n < 1000 then "000" ++ toString n
  else if n < 10000 then "00" ++ toString n
  else if n < 100000 then "0" ++ toString n
  else toString n

/-- `start_time.strftime("%Y-%m-%dT%H:%M:%SZ")` as used by
`has_time_entry`: second precision, literal `Z` suffix, the microsecond
field is simply not printed. -/
def pyStrftimeZ (d : PyDateTime) : String :=
  pad4 d.year ++ "-" ++ pad2 d.month ++ "-" ++ pad2 d.day ++ "T"
    ++ pad2 d.hour ++ ":" ++ pad2 d.minute ++ ":" ++ pad2 d.second ++ "Z"

/-- Python's `datetime.isoformat()`: seconds, then a `.ffffff` fraction
exactly when the microsecond field is non-zero. -/
def pyIsoformat (d : PyDateTime) : String :=
  pad4 d.year ++ "-" ++ pad2 d.month ++ "-" ++ pad2 d.day ++ "T"
    ++ pad2 d.hour ++ ":" ++ pad2 d.minute ++ ":" ++ pad2 d.second
    ++ (if d.microsecond = 0 then "" else "." ++ pad6 d.microsecond)

/-- `start_time.isoformat() + "Z"` as used by `add_time_entry`. -/
def pyIsoformatZ (d : PyDateTime) : String :=
  pyIsoformat d ++ "Z"

/-- Elements of the time-entry list returned by the service; their content
is irrelevant to the client, which only measures the list's length. -/
abbrev RemoteEntry := Unit

/-- `len(entries) > 0`, the value `has_time_entry` returns once it has the
decoded response list. -/
def has_time_entry_result (entries : List RemoteEntry) : Bool :=
  decide (entries.length > 0)

/-- `ClockifyAPI.has_time_entry`: build the query parameters with the
`strftime` serialization and ask the service; `raise_for_status` on a
non-2xx response is the `Except.error` case, and otherwise the result is
`len(entries) > 0`.  The remote service (network plus JSON decoding) is
abstracted as the function `service` from the query parameters to a
response. -/
def has_time_entry
    (service : List (String × String) → Except Unit (List RemoteEntry))
    (project_id : String) (start_time end_time : PyDateTime) :
    Except Unit Bool :=
  let start_str := pyStrftimeZ start_time
  let end_str := pyStrftimeZ end_time
  let params := [("start", start_str), ("end", end_str),
    ("project", project_id)]
  match service params with
  | Except.error e => Except.error e
  | Except.ok entries => Except.ok (has_time_entry_result entries)

/-- JSON values that can appear in the creation payload. -/
inductive JsonVal where
  | str (s : String)
  | bool (b : Bool)
deriving DecidableEq, Repr

/-- Python `str(b)` for a boolean. -/
def pyStrBool (b : Bool) : String :=
  if b then "True" else "False"

/-- Python `str.lower()`: lower-case each character (ASCII suffices for
the strings this program lowers). -/
def pyLower (s : String) : String :=
  String.mk (s.data.map Char.toLower)

example : pyLower "False" = "false" := by decide
example : pyLower "True" = "true" := by decide

/-- The `payload` dict built by `ClockifyAPI.add_time_entry`, in insertion
order: `billable` is `str(billable).lower()`, and `taskId` is appended
exactly when `task_id` is truthy (a non-`None`, non-empty string). -/
def add_time_entry_payload (project_id : String)
    (start_time end_time : PyDateTime) (description : String)
    (task_id : Option String) (billable : Bool) :
    List (String × JsonVal) :=
  let base := [
    ("start", JsonVal.str (pyIsoformatZ start_time)),
    ("end", JsonVal.str (pyIsoformatZ end_time)),
    ("description", JsonVal.str description),
    ("projectId", JsonVal.str project_id),
    ("billable", JsonVal.str (pyLower (pyStrBool billable)))]
  match task_id with
  | some t => if t.isEmpty then base else base ++ [("taskId", JsonVal.str t)]
  | none => base

/-- `today.replace(day=1, hour=9, minute=0, second=0, microsecond=0)` from
`main`. -/
def start_of_month (today : PyDateTime) : PyDateTime :=
  { today with
    day := 1
    hour := 9
    minute := 0
    second := 0
    microsecond := 0 }

/-- The run-wide choices fixed before the per-day loop of `main`:
description mode (1..3), the mode-1/2 description string, the selected
project, the optional selected task and the billable flag. -/
structure RunConfig where
  description_mode : Nat
  default_description : String
  project_id : String
  task_id : Option String
  billable : Bool

/-- Per-day behaviour of the environment: the service response to the
existence query, the service response to the creation request, and what
the operator would type at a mode-3 description prompt on that day.  An
`Except.error` response models `raise_for_status` raising
`requests.exceptions.HTTPError`. -/
structure DayEnv where
  queryResponse : Except Unit (List RemoteEntry)
  createResponse : Except Unit Unit
  typedDescription : String

/-- Arguments of one `api.add_time_entry(...)` call made by the loop. -/
structure CreateCall where
  project_id : String
  start_time : PyDateTime
  end_time : PyDateTime
  description : String
  task_id : Option String
  billable : Bool
deriving DecidableEq, Repr

/-- State threaded through the per-day loop: the two counters of `main`,
plus traces of the observable per-day events (the printed creation
failures, the `add_time_entry` calls and the mode-3 description prompts). -/
structure LoopState where
  added : Nat
  skipped : Nat
  failedDays : List PyDateTime
  createCalls : List CreateCall
  promptedDays : List PyDateTime
deriving DecidableEq, Repr

/-- Counters start at zero, traces empty. -/
def initState : LoopState :=
  ⟨0, 0, [], [], []⟩

/-- One iteration of the per-day loop of `main`.  `Except.error` is an
exception escaping the iteration (only the uncaught `HTTPError` from
`has_time_entry` does this); `Except.ok` means control reaches the next
day.  A creation failure is caught by the `try`/`except` block: it is
recorded in `failedDays` and the loop continues. -/
def processDay (cfg : RunConfig) (env : PyDateTime → DayEnv)
    (st : LoopState) (day : PyDateTime) : Except LoopState LoopState :=
  let start_time := { day with
    hour := 9
    minute := 0
    second := 0
    microsecond := 0 }
  let end_time := { day with
    hour := 16
    minute := 30
    second := 0
    microsecond := 0 }
  match has_time_entry (fun _ => (env day).queryResponse) cfg.project_id
      start_time end_time with
  | Except.error _ => Except.error st
  | Except.ok true => Except.ok { st with skipped := st.skipped + 1 }
  | Except.ok false =>
    let st1 := if cfg.description_mode = 3 then
      { st with promptedDays := st.promptedDays ++ [day] } else st
    let description := if cfg.description_mode = 3 then
      (env day).typedDescription else cfg.default_description
    let st2 := { st1 with createCalls := st1.createCalls ++
      [CreateCall.mk cfg.project_id start_time end_time description
        cfg.task_id cfg.billable] }
    match (env day).createResponse with
    | Except.ok _ => Except.ok { st2 with added := st2.added + 1 }
    | Except.error _ =>
        Except.ok { st2 with failedDays := st2.failedDays ++ [day] }

/-- The per-day loop of `main` over a list of working days.  An
`Except.error` result is an exception propagating out of the loop (the
remaining days are never examined). -/
def runDays (cfg : RunConfig) (env : PyDateTime → DayEnv) :
    List PyDateTime → LoopState → Except LoopState LoopState
  | [], st => Except.ok st
  | day :: rest, st =>
    match processDay cfg env st day with
    | Except.error st1 => Except.error st1
    | Except.ok st1 => runDays cfg env rest st1

/-- The loop state at the end of a run, whether or not it completed. -/
def stateOf : Except LoopState LoopState → LoopState
  | Except.ok st => st
  | Except.error st => st

theorem runDays_append (cfg : RunConfig) (env : PyDateTime → DayEnv)
    (l1 l2 : List PyDateTime) (st : LoopState) :
    runDays cfg env (l1 ++ l2) st =
      match runDays cfg env l1 st with
      | Except.error st1 => Except.error st1
      | Except.ok st1 => runDays cfg env l2 st1 := by
  induction l1 generalizing st with
  | nil => rfl
  | cons day rest ih =>
      simp only [List.cons_append, runDays]
      rcases hp : processDay cfg env st day with st1 | st1 <;>
        simp only [hp]
      exact ih st1

theorem processDay_of_query_ok {env : PyDateTime → DayEnv}
    {day : PyDateTime} {es : List RemoteEntry}
    (cfg : RunConfig) (st : LoopState)
    (hq : (env day).queryResponse = Except.ok es) :
    ∃ st1, processDay cfg env st day = Except.ok st1 ∧
      st1.added + st1.skipped + st1.failedDays.length =
        st.added + st.skipped + st.failedDays.length + 1 := by
  unfold processDay has_time_entry
  rw [hq]
  rcases hr : has_time_entry_result es with _ | _ <;> simp only [hr]
  · rcases hc : (env day).createResponse with u | u <;> simp only [hc] <;>
      by_cases hm : cfg.description_mode = 3 <;>
      refine ⟨_, rfl, ?_⟩ <;> simp [hm] <;> omega
  · refine ⟨_, rfl, ?_⟩
    simp
    omega

theorem processDay_error_eq {cfg : RunConfig} {env : PyDateTime → DayEnv}
    {st st1 : LoopState} {day : PyDateTime}
    (h : processDay cfg env st day = Except.error st1) : st1 = st := by
  unfold processDay has_time_entry at h
  rcases hq : (env day).queryResponse with _ | es <;> rw [hq] at h
  · injection h with h
    exact h.symm
  · rcases hr : has_time_entry_result es with _ | _ <;> simp only [hr] at h
    · rcases hc : (env day).createResponse with _ | _ <;>
        simp only [hc] at h <;> exact absurd h (by simp)
    · exact absurd h (by simp)

theorem processDay_of_query_error {env : PyDateTime → DayEnv}
    {day : PyDateTime} (cfg : RunConfig) (st : LoopState)
    (hq : (env day).queryResponse = Except.error ()) :
    processDay cfg env st day = Except.error st := by
  unfold processDay has_time_entry
  rw [hq]

theorem runDays_ok (cfg : RunConfig) (env : PyDateTime → DayEnv)
    (days : List PyDateTime) :
    ∀ st0, (∀ d ∈ days, ∃ es, (env d).queryResponse = Except.ok es) →
    ∃ st, runDays cfg env days st0 = Except.ok st ∧
      st.added + st.skipped + st.failedDays.length =
        st0.added + st0.skipped + st0.failedDays.length + days.length := by
  induction days with
  | nil =>
      intro st0 _
      exact ⟨st0, rfl, by simp⟩
  | cons day rest ih =>
      intro st0 h
      obtain ⟨es, hq⟩ := h day (List.mem_cons_self day rest)
      obtain ⟨st1, hp, hcount⟩ := processDay_of_query_ok cfg st0 hq
      obtain ⟨st, hrun, hcount2⟩ :=
        ih st1 (fun d hd => h d (List.mem_cons_of_mem day hd))
      refine ⟨st, ?_, by simp; omega⟩
      simp only [runDays, hp]
      exact hrun

theorem processDay_prompted {cfg : RunConfig} {env : PyDateTime → DayEnv}
    {st st1 : LoopState} {day : PyDateTime}
    (h : processDay cfg env st day = Except.ok st1) :
    ∀ d ∈ st1.promptedDays, d ∈ st.promptedDays ∨
      (d = day ∧ cfg.description_mode = 3 ∧
        ∃ es, (env day).queryResponse = Except.ok es ∧
          has_time_entry_result es = false) := by
  unfold processDay has_time_entry at h
  rcases hq : (env day).queryResponse with u | es <;> rw [hq] at h
  · exact absurd h (by simp)
  · rcases hr : has_time_entry_result es with _ | _ <;> simp only [hr] at h
    · rcases hc : (env day).createResponse with u | u <;>
        simp only [hc] at h <;>
        injection h with h <;> subst h <;>
        intro d hd <;>
        by_cases hm : cfg.description_mode = 3 <;>
        simp [hm] at hd <;>
        first
          | exact Or.inl hd
          | exact hd.imp id fun h2 => ⟨h2, hm, es, rfl, hr⟩
    · injection h with h
      subst h
      intro d hd
      exact Or.inl hd

theorem processDay_createCalls {cfg : RunConfig} {env : PyDateTime → DayEnv}
    {st st1 : LoopState} {day : PyDateTime}
    (h : processDay cfg env st day = Except.ok st1) :
    ∀ c ∈ st1.createCalls, c ∈ st.createCalls ∨
      (c.start_time = { day with
          hour := 9
          minute := 0
          second := 0
          microsecond := 0 } ∧
        c.end_time = { day with
          hour := 16
          minute := 30
          second := 0
          microsecond := 0 }) := by
  unfold processDay has_time_entry at h
  rcases hq : (env day).queryResponse with u | es <;> rw [hq] at h
  · exact absurd h (by simp)
  · rcases hr : has_time_entry_result es with _ | _ <;> simp only [hr] at h
    · rcases hc : (env day).createResponse with u | u <;>
        simp only [hc] at h <;>
        injection h with h <;> subst h <;>
        intro c hc2 <;>
        by_cases hm : cfg.description_mode = 3 <;>
        simp [hm] at hc2 <;>
        (rcases hc2 with hc2 | hc2
         · exact Or.inl hc2
         · subst hc2
           exact Or.inr ⟨rfl, rfl⟩)
    · injection h with h
      subst h
      intro c hc2
      exact Or.inl hc2

theorem runDays_prompted (cfg : RunConfig) (env : PyDateTime → DayEnv)
    (days : List PyDateTime) :
    ∀ st0, ∀ d ∈ (stateOf (runDays cfg env days st0)).promptedDays,
      d ∈ st0.promptedDays ∨
        (d ∈ days ∧ cfg.description_mode = 3 ∧
          ∃ es, (env d).queryResponse = Except.ok es ∧
            has_time_entry_result es = false) := by
  induction days with
  | nil =>
      intro st0 d hd
      exact Or.inl hd
  | cons day rest ih =>
      intro st0 d hd
      rw [runDays] at hd
      rcases hp : processDay cfg env st0 day with st1 | st1 <;>
        simp only [hp] at hd
      · have := processDay_error_eq hp
        subst this
        exact Or.inl hd
      · rcases ih st1 d hd with h1 | ⟨h1, h2, h3⟩
        · rcases processDay_prompted hp d h1 with h2 | ⟨h2, h3, h4⟩
          · exact Or.inl h2
          · exact Or.inr ⟨h2 ▸ List.mem_cons_self day rest, h3, h2 ▸ h4⟩
        · exact Or.inr ⟨List.mem_cons_of_mem day h1, h2, h3⟩

theorem runDays_createCalls (cfg : RunConfig) (env : PyDateTime → DayEnv)
    (days : List PyDateTime) :
    ∀ st0, ∀ c ∈ (stateOf (runDays cfg env days st0)).createCalls,
      c ∈ st0.createCalls ∨
        ∃ day ∈ days,
          c.start_time = { day with
            hour := 9
            minute := 0
            second := 0
            microsecond := 0 } ∧
          c.end_time = { day with
            hour := 16
            minute := 30
            second := 0
            microsecond := 0 } := by
  induction days with
  | nil =>
      intro st0 c hc
      exact Or.inl hc
  | cons day rest ih =>
      intro st0 c hc
      rw [runDays] at hc
      rcases hp : processDay cfg env st0 day with st1 | st1 <;>
        simp only [hp] at hc
      · have := processDay_error_eq hp
        subst this
        exact Or.inl hc
      · rcases ih st1 c hc with h1 | ⟨d, hd, h2, h3⟩
        · rcases processDay_createCalls hp c h1 with h2 | ⟨h2, h3⟩
          · exact Or.inl h2
          · exact Or.inr ⟨day, List.mem_cons_self day rest, h2, h3⟩
        · exact Or.inr ⟨d, List.mem_cons_of_mem day hd, h2, h3⟩

/-- Lexicographic order on calendar dates (year, month, day), used to state
"the date lies between the first of the month and today". -/
def dateLe (y1 m1 d1 y2 m2 d2 : Nat) : Prop :=
  y1 < y2 ∨ (y1 = y2 ∧ (m1 < m2 ∨ (m1 = m2 ∧ d1 ≤ d2)))

instance (y1 m1 d1 y2 m2 d2 : Nat) : Decidable (dateLe y1 m1 d1 y2 m2 d2) := by
  unfold dateLe
  infer_instance

theorem dateLe_of_dtLeB {a b : PyDateTime} (h : dtLeB a b = true) :
    dateLe a.year a.month a.day b.year b.month b.day := by
  rw [dtLeB_iff] at h
  unfold dateLe
  omega

/-- Python `int(text)` abstracted: `some n` when `int` succeeds with value
`n`, `none` when it raises `ValueError`.  The selection loops only consume
this outcome. -/
def PyIntFn := String → Option Int

/-- The project-selection loop of `main`: read inputs one at a time; an
input that fails `int(...)` or is out of range (after the `- 1`) is
rejected and the loop prompts again; the first valid ordinal selects the
project.  `none` models an input stream that runs out before a valid
ordinal appears. -/
def select_project (pyInt : PyIntFn) (numProjects : Nat) :
    List String → Option (Nat × List String)
  | [] => none
  | i :: rest =>
    match pyInt i with
    | none => select_project pyInt numProjects rest
    | some v =>
      let project_idx := v - 1
      if 0 ≤ project_idx ∧ project_idx < (numProjects : Int) then
        some (project_idx.toNat, rest)
      else select_project pyInt numProjects rest

/-- The task-selection step of `main` (reached only when the task list is
non-empty): exactly one input is read; blank (after `strip()`) skips task
selection; a non-blank input that parses to an in-range ordinal selects
that task; any other non-blank input is reported and treated as "no
task selected" without re-prompting.  `none` models an empty input
stream. -/
def select_task (pyInt : PyIntFn) (numTasks : Nat) :
    List String → Option (Option Nat × List String)
  | [] => none
  | i :: rest =>
    if (i.trim).isEmpty then some (none, rest)
    else
      match pyInt i with
      | none => some (none, rest)
      | some v =>
        let task_idx := v - 1
        if 0 ≤ task_idx ∧ task_idx < (numTasks : Int) then
          some (some task_idx.toNat, rest)
        else some (none, rest)

theorem select_project_skips_invalid (pyInt : PyIntFn) (n : Nat) :
    ∀ pre : List String, ∀ v : String, ∀ rest : List String, ∀ k : Int,
    (∀ x ∈ pre, ∀ j : Int, pyInt x = some j →
      ¬(0 ≤ j - 1 ∧ j - 1 < (n : Int))) →
    pyInt v = some k → (0 ≤ k - 1 ∧ k - 1 < (n : Int)) →
    select_project pyInt n (pre ++ v :: rest) = some ((k - 1).toNat, rest) := by
  intro pre
  induction pre with
  | nil =>
      intro v rest k _ hv hk
      simp only [List.nil_append, select_project, hv]
      rw [if_pos hk]
  | cons x xs ih =>
      intro v rest k hpre hv hk
      simp only [List.cons_append, select_project]
      split
      · exact ih v rest k
          (fun y hy => hpre y (List.mem_cons_of_mem x hy)) hv hk
      · case _ j heq =>
          rw [if_neg (hpre x (List.mem_cons_self x xs) j heq)]
          exact ih v rest k
            (fun y hy => hpre y (List.mem_cons_of_mem x hy)) hv hk

/-- Dates for the concrete instances below: a Friday and the following
Monday at the loop's times, and the 1st of a month that is a Tuesday. -/
def wStart : PyDateTime := ⟨2026, 10, 9, 9, 0, 0, 0⟩

def wEnd : PyDateTime := ⟨2026, 10, 12, 10, 0, 0, 0⟩

/-- 2024-10-01 is a Tuesday; 08:00 is before the 09:00 window start. -/
def earlyFirst : PyDateTime := ⟨2024, 10, 1, 8, 0, 0, 0⟩

/-- 2024-10-01 at 10:00, after the 09:00 window start. -/
def lateFirst : PyDateTime := ⟨2024, 10, 1, 10, 0, 0, 0⟩

/-- C1: for start <= end, `get_working_days` returns exactly the datetimes
reachable from `start` by stepping one day at a time that lie in the
closed interval [start, end] and whose weekday is Monday..Friday, in
ascending order. -/
theorem c1_get_working_days_spec (start_date end_date : PyDateTime)
    (h : dtLeB start_date end_date = true) :
    (∀ d, d ∈ get_working_days start_date end_date ↔
      ((∃ k, d = addDays k start_date) ∧ dtLeB start_date d = true ∧
        dtLeB d end_date = true ∧ d.weekday < 5)) ∧
    (get_working_days start_date end_date).Pairwise
      (fun a b => dtLtB a b = true) :=
  ⟨fun d => gwd_mem_iff start_date end_date d, gwd_sorted start_date end_date⟩

/-- Witness for C1 at a concrete Friday-to-Monday interval. -/
theorem c1_get_working_days_spec_witness :
    (∀ d, d ∈ get_working_days wStart wEnd ↔
      ((∃ k, d = addDays k wStart) ∧ dtLeB wStart d = true ∧
        dtLeB d wEnd = true ∧ d.weekday < 5)) ∧
    (get_working_days wStart wEnd).Pairwise
      (fun a b => dtLtB a b = true) :=
  c1_get_working_days_spec wStart wEnd (by decide)

/-- C3: `has_time_entry` answers `true` exactly when the service's
response list for its query is non-empty; it inspects nothing but the
length of the list. -/
theorem c3_has_time_entry_iff_nonempty
    (service : List (String × String) → Except Unit (List RemoteEntry))
    (project_id : String) (start_time end_time : PyDateTime)
    (entries : List RemoteEntry)
    (h : service [("start", pyStrftimeZ start_time),
      ("end", pyStrftimeZ end_time), ("project", project_id)] =
        Except.ok entries) :
    (has_time_entry service project_id start_time end_time =
      Except.ok true ↔ entries ≠ []) := by
  simp only [has_time_entry]
  rw [h]
  simp [has_time_entry_result, List.length_pos]

/-- Witness for C3 with a one-element response list. -/
theorem c3_has_time_entry_iff_nonempty_witness :
    (has_time_entry (fun _ => Except.ok [()]) "p" wStart wEnd =
      Except.ok true ↔ ([()] : List RemoteEntry) ≠ []) :=
  c3_has_time_entry_iff_nonempty (fun _ => Except.ok [()]) "p" wStart wEnd
    [()] rfl

/-- C4 fails as stated: at 08:00 on a Tuesday the 1st, `now` is before the
start-of-month instant 09:00, the loop guard fails immediately, and the
working-day list is empty rather than containing day 1. -/
theorem c4_counterexample :
    earlyFirst.day = 1 ∧ earlyFirst.weekday = 1 ∧
    get_working_days (start_of_month earlyFirst) earlyFirst = [] := by
  refine ⟨rfl, by decide, ?_⟩
  have hn : ¬(dtLeB (start_of_month earlyFirst) earlyFirst = true) := by
    decide
  rw [get_working_days, dif_neg hn]

/-- C4 amended: when `now` is on the 1st, a Tuesday, at or after 09:00,
the working-day list is exactly the singleton day 1 at 09:00. -/
theorem c4_first_tuesday_amended (now : PyDateTime) (h1 : now.day = 1)
    (h2 : now.weekday = 1)
    (h3 : dtLeB (start_of_month now) now = true) :
    get_working_days (start_of_month now) now = [start_of_month now] := by
  have hwd : (start_of_month now).weekday < 5 := by
    have he : (start_of_month now).weekday = now.weekday := by
      simp [PyDateTime.weekday, toOrdinal, start_of_month, h1]
    omega
  have hcond : (start_of_month now).day <
      daysInMonth (start_of_month now).year (start_of_month now).month := by
    have hb := daysInMonth_bounds now.year now.month
    simp only [start_of_month]
    omega
  have hnd : nextDay (start_of_month now) =
      PyDateTime.mk now.year now.month 2 9 0 0 0 := by
    simp only [nextDay, if_pos hcond]
    rfl
  have hnext : ¬(dtLeB (nextDay (start_of_month now)) now = true) := by
    rw [hnd, dtLeB_iff]
    simp only [not_or, not_and]
    omega
  rw [get_working_days, dif_pos h3, if_pos hwd, get_working_days,
    dif_neg hnext]
  rfl

/-- Witness for the amended C4 at 2024-10-01 10:00. -/
theorem c4_first_tuesday_amended_witness :
    get_working_days (start_of_month lateFirst) lateFirst =
      [start_of_month lateFirst] :=
  c4_first_tuesday_amended lateFirst rfl (by decide) (by decide)

/-- C5: the existence-check serialization (`strftime` with literal `Z`,
second precision) and the creation serialization (`isoformat() + "Z"`)
agree on every datetime with zero microseconds, and differ on some
datetime with non-zero microseconds. -/
theorem c5_serialization_mismatch :
    (∀ d : PyDateTime, d.microsecond = 0 →
      pyStrftimeZ d = pyIsoformatZ d) ∧
    (∃ d : PyDateTime, d.microsecond ≠ 0 ∧
      pyStrftimeZ d ≠ pyIsoformatZ d) := by
  constructor
  · intro d h
    unfold pyStrftimeZ pyIsoformatZ pyIsoformat
    rw [if_pos h]
    simp
  · exact ⟨⟨2024, 10, 1, 9, 0, 0, 500000⟩, by decide, by decide⟩

/-- C7: in the creation payload the `billable` field is the string
literal `"true"` or `"false"` according to the flag, and is never a JSON
boolean. -/
theorem c7_billable_serialized_as_string (project_id : String)
    (start_time end_time : PyDateTime) (description : String)
    (task_id : Option String) (billable : Bool) :
    ((add_time_entry_payload project_id start_time end_time description
      task_id billable).lookup "billable" =
        some (JsonVal.str (if billable then "true" else "false"))) ∧
    ∀ v : Bool, ("billable", JsonVal.bool v) ∉
      add_time_entry_payload project_id start_time end_time description
        task_id billable := by
  constructor
  · unfold add_time_entry_payload
    rcases task_id with _ | t
    · cases billable <;> simp [List.lookup, pyStrBool, pyLower]
    · by_cases ht : t.isEmpty <;> cases billable <;>
        simp [List.lookup, pyStrBool, pyLower, ht]
  · intro v
    unfold add_time_entry_payload
    rcases task_id with _ | t
    · simp
    · by_cases ht : t.isEmpty <;> simp [ht]

/-- Witness for C7 at concrete payload arguments, both flag values. -/
theorem c7_billable_serialized_as_string_witness :
    (((add_time_entry_payload "proj" wStart wEnd "d" none true).lookup
        "billable" = some (JsonVal.str (if true then "true" else "false"))) ∧
      ∀ v : Bool, ("billable", JsonVal.bool v) ∉
        add_time_entry_payload "proj" wStart wEnd "d" none true) ∧
    (((add_time_entry_payload "proj" wStart wEnd "d" none false).lookup
        "billable" = some (JsonVal.str (if false then "true" else "false"))) ∧
      ∀ v : Bool, ("billable", JsonVal.bool v) ∉
        add_time_entry_payload "proj" wStart wEnd "d" none false) :=
  ⟨c7_billable_serialized_as_string "proj" wStart wEnd "d" none true,
   c7_billable_serialized_as_string "proj" wStart wEnd "d" none false⟩

/-- C2: a creation failure on one day is caught inside the loop — the
iteration still returns control to the loop (`Except.ok`) and bumps
neither counter — and when every existence query succeeds the whole loop
completes with `added + skipped + failures = total`, so `added + skipped`
equals the number of working days processed exactly when no day's
creation failed. -/
theorem c2_create_failure_is_isolated (cfg : RunConfig)
    (env : PyDateTime → DayEnv) (days : List PyDateTime)
    (hq : ∀ d ∈ days, ∃ es, (env d).queryResponse = Except.ok es) :
    (∀ st day es, (env day).queryResponse = Except.ok es →
      has_time_entry_result es = false →
      (env day).createResponse = Except.error () →
      ∃ st1, processDay cfg env st day = Except.ok st1 ∧
        st1.added = st.added ∧ st1.skipped = st.skipped) ∧
    ∃ st, runDays cfg env days initState = Except.ok st ∧
      st.added + st.skipped + st.failedDays.length = days.length ∧
      (st.added + st.skipped = days.length ↔ st.failedDays = []) := by
  constructor
  · intro st day es hq2 hr hc
    unfold processDay has_time_entry
    rw [hq2]
    simp only [hr, hc]
    by_cases hm : cfg.description_mode = 3 <;>
      refine ⟨_, rfl, ?_, ?_⟩ <;> simp [hm]
  · obtain ⟨st, h1, h2⟩ := runDays_ok cfg env days initState hq
    have h4 : st.added + st.skipped + st.failedDays.length = days.length := by
      simpa [initState] using h2
    refine ⟨st, h1, h4, ?_, ?_⟩
    · intro h5
      rw [← List.length_eq_zero]
      omega
    · intro h5
      rw [h5] at h4
      simpa using h4

/-- The environment used by the concrete loop runs below: every existence
query returns the empty list, and creation fails on `wStart` and succeeds
elsewhere. -/
def envFailOnStart : PyDateTime → DayEnv := fun d =>
  ⟨Except.ok [], if d = wStart then Except.error () else Except.ok (), "x"⟩

/-- A mode-1 configuration for the concrete loop runs below. -/
def cfgMode1 : RunConfig := ⟨1, "Standard workday", "proj", none, false⟩

/-- Witness for C2: a two-day run in which the first day's creation
fails. -/
theorem c2_create_failure_is_isolated_witness :
    (∀ st day es, (envFailOnStart day).queryResponse = Except.ok es →
      has_time_entry_result es = false →
      (envFailOnStart day).createResponse = Except.error () →
      ∃ st1, processDay cfgMode1 envFailOnStart st day = Except.ok st1 ∧
        st1.added = st.added ∧ st1.skipped = st.skipped) ∧
    ∃ st, runDays cfgMode1 envFailOnStart [wStart, wEnd] initState =
        Except.ok st ∧
      st.added + st.skipped + st.failedDays.length =
        [wStart, wEnd].length ∧
      (st.added + st.skipped = [wStart, wEnd].length ↔
        st.failedDays = []) :=
  c2_create_failure_is_isolated cfgMode1 envFailOnStart [wStart, wEnd]
    (fun d _ => ⟨[], rfl⟩)

/-- C9: an HTTP error raised by the existence check is not caught by the
per-day loop: the run ends with that exception, and the days after the
failing one are never processed (the result does not depend on them). -/
theorem c9_query_error_aborts_run (cfg : RunConfig)
    (env : PyDateTime → DayEnv) (daysBefore daysAfter : List PyDateTime)
    (day : PyDateTime)
    (hpre : ∀ d ∈ daysBefore, ∃ es, (env d).queryResponse = Except.ok es)
    (hd : (env day).queryResponse = Except.error ()) :
    ∃ st, runDays cfg env (daysBefore ++ day :: daysAfter) initState =
        Except.error st ∧
      runDays cfg env (daysBefore ++ [day]) initState =
        Except.error st := by
  obtain ⟨st1, h1, _⟩ := runDays_ok cfg env daysBefore initState hpre
  have habort : ∀ rest, runDays cfg env (day :: rest) st1 =
      Except.error st1 := by
    intro rest
    rw [runDays, processDay_of_query_error cfg st1 hd]
  refine ⟨st1, ?_, ?_⟩ <;>
    rw [runDays_append, h1] <;>
    exact habort _

/-- The environment for the C9 witness: the query itself fails on
`wEnd`. -/
def envQueryFailOnEnd : PyDateTime → DayEnv := fun d =>
  ⟨if d = wEnd then Except.error () else Except.ok [], Except.ok (), "x"⟩

/-- Witness for C9: the query fails on the second of three days. -/
theorem c9_query_error_aborts_run_witness :
    ∃ st, runDays cfgMode1 envQueryFailOnEnd
        ([wStart] ++ wEnd :: [lateFirst]) initState = Except.error st ∧
      runDays cfgMode1 envQueryFailOnEnd ([wStart] ++ [wEnd]) initState =
        Except.error st :=
  c9_query_error_aborts_run cfgMode1 envQueryFailOnEnd [wStart] [lateFirst]
    wEnd (by intro d hd; exact ⟨[], by simp at hd; simp [hd, envQueryFailOnEnd, wStart, wEnd]⟩) rfl

/-- C10: in description mode 3, a day appears in the prompt trace only if
it is one of the processed working days and its existence check returned
`false` — a day skipped because an entry exists is never prompted for. -/
theorem c10_prompt_only_for_created_days (cfg : RunConfig)
    (env : PyDateTime → DayEnv) (days : List PyDateTime) (d : PyDateTime)
    (hmode : cfg.description_mode = 3)
    (hd : d ∈ (stateOf (runDays cfg env days initState)).promptedDays) :
    d ∈ days ∧ ∃ es, (env d).queryResponse = Except.ok es ∧
      has_time_entry_result es = false := by
  rcases runDays_prompted cfg env days initState d hd with h | ⟨h1, _, h3⟩
  · exact absurd h (by simp [initState])
  · exact ⟨h1, h3⟩

/-- A mode-3 configuration for the concrete loop runs below. -/
def cfgMode3 : RunConfig := ⟨3, "Standard workday", "proj", none, false⟩

/-- The environment for the C10 witness: an entry already exists on
`wStart`, no entry exists on `wEnd`, all requests succeed. -/
def envExistsOnStart : PyDateTime → DayEnv := fun d =>
  ⟨if d = wStart then Except.ok [()] else Except.ok [], Except.ok (), "x"⟩

/-- Witness for C10: in a two-day mode-3 run where day one already has an
entry, the prompted day `wEnd` is a processed day whose check returned
`false`. -/
theorem c10_prompt_only_for_created_days_witness :
    wEnd ∈ [wStart, wEnd] ∧
      ∃ es, (envExistsOnStart wEnd).queryResponse = Except.ok es ∧
        has_time_entry_result es = false :=
  c10_prompt_only_for_created_days cfgMode3 envExistsOnStart [wStart, wEnd]
    wEnd rfl (by decide)

/-- C6: every `add_time_entry` call made by the loop over the computed
working days is for some calendar date that is a weekday (Monday..Friday)
lying between the first day of the current month and the current date
inclusive, with start time 09:00:00.000000 and end time 16:30:00.000000
on that date. -/
theorem c6_created_entries_invariant (now : PyDateTime) (cfg : RunConfig)
    (env : PyDateTime → DayEnv) (c : CreateCall)
    (hc : c ∈ (stateOf (runDays cfg env
      (get_working_days (start_of_month now) now) initState)).createCalls) :
    ∃ y mo d, c.start_time = PyDateTime.mk y mo d 9 0 0 0 ∧
      c.end_time = PyDateTime.mk y mo d 16 30 0 0 ∧
      (PyDateTime.mk y mo d 9 0 0 0).weekday < 5 ∧
      dateLe now.year now.month 1 y mo d ∧
      dateLe y mo d now.year now.month now.day := by
  rcases runDays_createCalls cfg env _ initState c hc with h | ⟨day, hday, h1, h2⟩
  · exact absurd h (by simp [initState])
  · obtain ⟨⟨k, hk⟩, hle1, hle2, hwd⟩ :=
      (gwd_mem_iff (start_of_month now) now day).mp hday
    refine ⟨day.year, day.month, day.day, ?_, ?_, ?_, ?_, ?_⟩
    · rw [h1]
    · rw [h2]
    · exact hwd
    · exact dateLe_of_dtLeB hle1
    · exact dateLe_of_dtLeB hle2

/-- The environment for the C6 witness: no entries exist, all requests
succeed. -/
def envAllClear : PyDateTime → DayEnv := fun _ =>
  ⟨Except.ok [], Except.ok (), "x"⟩

/-- The single `add_time_entry` call of the C6 witness run. -/
def wCall : CreateCall :=
  ⟨"proj", ⟨2024, 10, 1, 9, 0, 0, 0⟩, ⟨2024, 10, 1, 16, 30, 0, 0⟩,
    "Standard workday", none, false⟩

/-- Witness for C6: a run on 2024-10-01 at 10:00 creates exactly the
entry for the 1st, 09:00 to 16:30. -/
theorem c6_created_entries_invariant_witness :
    ∃ y mo d, wCall.start_time = PyDateTime.mk y mo d 9 0 0 0 ∧
      wCall.end_time = PyDateTime.mk y mo d 16 30 0 0 ∧
      (PyDateTime.mk y mo d 9 0 0 0).weekday < 5 ∧
      dateLe lateFirst.year lateFirst.month 1 y mo d ∧
      dateLe y mo d lateFirst.year lateFirst.month lateFirst.day := by
  have hdays : get_working_days (start_of_month lateFirst) lateFirst =
      [start_of_month lateFirst] := by
    rw [get_working_days, dif_pos (by decide), if_pos (by decide),
      get_working_days, dif_neg (by decide)]
    rfl
  have hmem : wCall ∈ (stateOf (runDays cfgMode1 envAllClear
      (get_working_days (start_of_month lateFirst) lateFirst)
      initState)).createCalls := by
    rw [hdays]
    decide
  exact c6_created_entries_invariant lateFirst cfgMode1 envAllClear wCall hmem

/-- C8: the project prompt rejects non-numeric and out-of-range inputs and
keeps prompting until a valid ordinal arrives, while the task prompt
consumes exactly one input and converts any invalid non-blank input into
"no task selected" without re-prompting. -/
theorem c8_selection_asymmetry (pyInt : PyIntFn)
    (numProjects numTasks : Nat) (badInputs : List String) (v : String)
    (rest : List String) (k : Int)
    (hbad : ∀ x ∈ badInputs, ∀ j : Int, pyInt x = some j →
      ¬(0 ≤ j - 1 ∧ j - 1 < (numProjects : Int)))
    (hv : pyInt v = some k)
    (hk : 0 ≤ k - 1 ∧ k - 1 < (numProjects : Int)) :
    select_project pyInt numProjects (badInputs ++ v :: rest) =
      some ((k - 1).toNat, rest) ∧
    ∀ i rest2, ∃ choice,
      select_task pyInt numTasks (i :: rest2) = some (choice, rest2) ∧
      ((¬(i.trim).isEmpty = true ∧ ∀ j : Int, pyInt i = some j →
        ¬(0 ≤ j - 1 ∧ j - 1 < (numTasks : Int))) → choice = none) := by
  constructor
  · exact select_project_skips_invalid pyInt numProjects badInputs v rest k
      hbad hv hk
  · intro i rest2
    by_cases hb : (i.trim).isEmpty
    · refine ⟨none, ?_, fun _ => rfl⟩
      simp only [select_task]
      rw [if_pos hb]
    · rcases hpi : pyInt i with _ | j
      · refine ⟨none, ?_, fun _ => rfl⟩
        simp only [select_task, hpi]
        rw [if_neg hb]
      · by_cases hr : (0 : Int) ≤ j - 1 ∧ j - 1 < (numTasks : Int)
        · refine ⟨some (j - 1).toNat, ?_, ?_⟩
          · simp only [select_task, hpi]
            rw [if_neg hb, if_pos hr]
          · rintro ⟨_, hall⟩
            exact absurd hr (hall j rfl)
        · refine ⟨none, ?_, fun _ => rfl⟩
          simp only [select_task, hpi]
          rw [if_neg hb, if_neg hr]

/-- A concrete instantiation of the `int(...)` oracle for the C8 witness:
"2" parses to 2, "7" parses to 7, everything else raises. -/
def wPyInt : PyIntFn := fun s =>
  if s = "2" then some 2 else if s = "7" then some 7 else none

/-- Witness for C8: two projects, first two inputs invalid
(non-numeric, out of range), the third selects project 2. -/
theorem c8_selection_asymmetry_witness :
    select_project wPyInt 2 (["abc", "7"] ++ "2" :: []) =
      some (((2 : Int) - 1).toNat, []) ∧
    ∀ i rest2, ∃ choice,
      select_task wPyInt 2 (i :: rest2) = some (choice, rest2) ∧
      ((¬(i.trim).isEmpty = true ∧ ∀ j : Int, wPyInt i = some j →
        ¬(0 ≤ j - 1 ∧ j - 1 < (2 : Int))) → choice = none) := by
  refine c8_selection_asymmetry wPyInt 2 2 ["abc", "7"] "2" [] 2
    ?_ (by decide) (by decide)
  intro x hx j hj
  simp at hx
  rcases hx with hx | hx <;> subst hx
  · rw [show wPyInt "abc" = none by decide] at hj
    exact absurd hj (by simp)
  · rw [show wPyInt "7" = some 7 by decide] at hj
    injection hj with hj
    omega

end ClockiFill
